import Mathlib

/-!
Verification of the Fogger scoring / clustering / monitoring core.

The Go sources are embedded shallowly: `float64` arithmetic is modelled by `ℚ`
(every constant in the scoring pipeline is an exact decimal fraction and all
comparisons proved here are bounded away from rounding error), `time.Time` by a
rational timestamp, Go maps by association lists with unique keys, and fallible
operations by `Except String`.  Function and field names follow the source.
-/

namespace Fogger

/-- `internal/models/models.go`: `Evidence` record backing a signal. -/
structure Evidence where
  type : String
  reference : String
  timestamp : ℚ
  deriving DecidableEq

/-- `internal/models/models.go`: an atomic signal found during analysis. -/
structure Signal where
  SignalID : String
  Category : String
  Description : String
  Confidence : ℚ
  Evidence : List Evidence
  deriving DecidableEq

/-- `internal/models/models.go`: a domain entity with analysis results. -/
structure Domain where
  Domain : String
  FirstSeen : ℚ
  LastSeen : ℚ
  CDNProvider : String
  JLIScore : ℚ
  JLILevel : String
  ClusterID : Option String
  Signals : List Signal
  deriving DecidableEq

/-- `internal/models/models.go`: per-category breakdown of the score. -/
structure CategoryBreakdown where
  Score : ℚ
  Weight : ℚ
  Contribution : ℚ
  deriving DecidableEq

/-- `internal/models/models.go`: the complete analysis result.  The Go
`map[string]CategoryBreakdown` is an association list here. -/
structure AnalysisResult where
  Domain : Domain
  JLIScore : ℚ
  JLILevel : String
  CategoryBreakdown : List (String × CategoryBreakdown)
  ProfileUsed : String
  deriving DecidableEq

/-- `internal/config/config.go`: weights for the five scoring categories. -/
structure ScoringConfig where
  GamblingUI : ℚ
  PaymentSignal : ℚ
  InfraCorrelation : ℚ
  DomainChurn : ℚ
  CDNPattern : ℚ
  deriving DecidableEq

/-- `internal/config/config.go`: classification thresholds. -/
structure ThresholdConfig where
  High : ℚ
  Medium : ℚ
  deriving DecidableEq

/-- `internal/config/config.go`: the complete configuration. -/
structure Config where
  Scoring : ScoringConfig
  Threshold : ThresholdConfig
  deriving DecidableEq

/-- Go map write `m[k] = v` on an association-list map: overwrite the entry
holding key `k`, or append a fresh entry when the key is absent. -/
def mapSet {α : Type} (m : List (String × α)) (k : String) (v : α) :
    List (String × α) :=
  match m with
  | [] => [(k, v)]
  | (k', v') :: rest =>
    if k' = k then (k, v) :: rest else (k', v') :: mapSet rest k v

/-- Go map `delete(m, k)` on an association-list map. -/
def mapErase {α : Type} (m : List (String × α)) (k : String) :
    List (String × α) :=
  m.filter (fun p => p.1 ≠ k)

/-- `calculateCategoryScoresWithSignals` (analyzer): reduce a signal list to
one score per category, keeping the maximum confidence seen so far.  The Go
loop reads the current entry with zero-value default `0.0` and overwrites it
only when the new confidence is strictly greater. -/
def calculateCategoryScoresWithSignals (signals : List Signal) :
    List (String × ℚ) :=
  signals.foldl
    (fun categoryScores signal =>
      let currentScore := (categoryScores.lookup signal.Category).getD 0
      if signal.Confidence > currentScore then
        mapSet categoryScores signal.Category signal.Confidence
      else
        categoryScores)
    []

/-- `calculateConfidenceFactor` (analyzer): count categories with a positive
score; three or more give factor `1.0`, otherwise `count * 0.33`. -/
def calculateConfidenceFactor (categoryScores : List (String × ℚ)) : ℚ :=
  let count := (categoryScores.filter (fun p => p.2 > 0)).length
  if count ≥ 3 then 1 else (count : ℚ) * (33 / 100)

/-- `calculateJLIScore` (analyzer): weighted sum of the five category scores
(absent categories read as the Go zero value `0.0`), damped by the confidence
factor and clamped into `[0, 1]`. -/
def calculateJLIScore (categoryScores : List (String × ℚ))
    (weights : ScoringConfig) : ℚ :=
  let jliRaw : ℚ :=
    (categoryScores.lookup "UX").getD 0 * weights.GamblingUI +
    (categoryScores.lookup "PAYMENT").getD 0 * weights.PaymentSignal +
    (categoryScores.lookup "INFRA").getD 0 * weights.InfraCorrelation +
    (categoryScores.lookup "DNS").getD 0 * weights.DomainChurn +
    (categoryScores.lookup "CDN").getD 0 * weights.CDNPattern
  let jliScore := jliRaw * calculateConfidenceFactor categoryScores
  if jliScore > 1 then 1 else if jliScore < 0 then 0 else jliScore

/-- `calculateSignalFactor` (analyzer): when at least 70% of all signals have
confidence at least `0.8`, boost by `1.2`; otherwise neutral. -/
def calculateSignalFactor (signals : List Signal) : ℚ :=
  let highConfidenceCount :=
    (signals.filter (fun s => s.Confidence ≥ 8 / 10)).length
  let totalCount := signals.length
  if totalCount > 0 then
    let highConfRatio := (highConfidenceCount : ℚ) / (totalCount : ℚ)
    if highConfRatio ≥ 7 / 10 then 12 / 10 else 1
  else 1

/-- `calculateTemporalFactor` (analyzer): fixed neutral factor. -/
def calculateTemporalFactor : ℚ := 1

/-- `calculateEnhancedJLIScore` (analyzer): base score times the signal and
temporal factors, clamped into `[0, 1]`. -/
def calculateEnhancedJLIScore (categoryScores : List (String × ℚ))
    (weights : ScoringConfig) (signals : List Signal) : ℚ :=
  let jliBase := calculateJLIScore categoryScores weights
  let signalFactor := calculateSignalFactor signals
  let temporalFactor := calculateTemporalFactor
  let enhancedScore := jliBase * signalFactor * temporalFactor
  if enhancedScore > 1 then 1
  else if enhancedScore < 0 then 0
  else enhancedScore

/-- `classifyJLILevel` (analyzer): inclusive threshold comparison. -/
def classifyJLILevel (jliScore : ℚ) (thresholds : ThresholdConfig) : String :=
  if jliScore ≥ thresholds.High then "HIGH"
  else if jliScore ≥ thresholds.Medium then "MEDIUM"
  else "LOW"

/-- `GetDefaultConfig` (`internal/config/manager.go`): the default profile. -/
def GetDefaultConfig : Config :=
  { Scoring :=
      { GamblingUI := 30 / 100
        PaymentSignal := 25 / 100
        InfraCorrelation := 20 / 100
        DomainChurn := 15 / 100
        CDNPattern := 10 / 100 }
    Threshold := { High := 75 / 100, Medium := 50 / 100 } }

/-- Sum of the five scoring weights, as computed by both `Initialize`
(`config.go`) and `validateProfile` (`manager.go`). -/
def scoringWeightSum (s : ScoringConfig) : ℚ :=
  s.GamblingUI + s.PaymentSignal + s.InfraCorrelation + s.DomainChurn +
    s.CDNPattern

/-- `validateProfile` (`internal/config/manager.go`): reject a profile whose
weights do not sum exactly to `1.0`, whose high threshold is below the medium
one, or whose thresholds leave `[0, 1]`.  The Go error strings interpolate the
offending numbers; the numeric interpolation is elided here. -/
def validateProfile (profile : Config) : Except String Unit :=
  let totalWeight := scoringWeightSum profile.Scoring
  if totalWeight ≠ 1 then
    Except.error "profile scoring weights do not sum to 1.0"
  else if profile.Threshold.High < profile.Threshold.Medium then
    Except.error "profile high threshold must be >= medium threshold"
  else if profile.Threshold.High > 1 ∨ profile.Threshold.Medium > 1 ∨
      profile.Threshold.High < 0 ∨ profile.Threshold.Medium < 0 then
    Except.error "profile thresholds must be between 0 and 1"
  else
    Except.ok ()

/-- The validation step of `Initialize` (`internal/config/config.go`, lines
64-73): after unmarshalling, the weight sum is computed and a warning is
logged when it differs from `1.0`; the configuration is installed unchanged
either way and the thresholds are not examined at all.  The result is the
installed configuration paired with whether a warning was logged. -/
def InitializeValidation (config : Config) : Config × Bool :=
  let totalWeight := scoringWeightSum config.Scoring
  (config, totalWeight ≠ 1)

/-- `strings.Contains` helper: Boolean list-prefix test on characters. -/
def charPrefixOf : List Char → List Char → Bool
  | [], _ => true
  | _ :: _, [] => false
  | a :: as, b :: bs => a = b && charPrefixOf as bs

/-- `strings.Contains` helper: Boolean list-infix test on characters. -/
def charInfixOf (needle : List Char) : List Char → Bool
  | [] => needle.isEmpty
  | c :: rest => charPrefixOf needle (c :: rest) || charInfixOf needle rest

/-- Go `strings.Contains(s, substr)`. -/
def containsStr (s substr : String) : Bool :=
  charInfixOf substr.toList s.toList

/-- Splitting a character list at every character satisfying `p`, keeping
empty segments, as Go `strings.Split` and `strings.Fields` do before empties
are dropped. -/
def splitOnPred (p : Char → Bool) : List Char → List (List Char)
  | [] => [[]]
  | c :: rest =>
    match splitOnPred p rest with
    | [] => [[]]
    | w :: ws => if p c then [] :: w :: ws else (c :: w) :: ws

/-- Go `strings.Split(s, sep)` for a one-character separator. -/
def splitOnChar (sep : Char) (l : List Char) : List (List Char) :=
  splitOnPred (fun c => c = sep) l

/-- Go `strings.Fields(s)`: split around runs of whitespace. -/
def stringFields (s : String) : List String :=
  ((splitOnPred Char.isWhitespace s.toList).filter
      (fun w => !w.isEmpty)).map String.mk

/-- Go `strings.TrimSpace`: drop leading and trailing whitespace. -/
def charTrim (l : List Char) : List Char :=
  ((l.dropWhile Char.isWhitespace).reverse.dropWhile Char.isWhitespace).reverse

/-- One dotted-quad octet as accepted by Go `net.ParseIP` (decimal, at most
three digits, value at most 255, no leading zero). -/
def parseOctet (w : List Char) : Bool :=
  w.length > 0 && w.length ≤ 3 && w.all Char.isDigit &&
    (w.foldl (fun n c => n * 10 + (c.toNat - 48)) 0) ≤ 255 &&
    (w.length = 1 || w.headD ' ' ≠ '0')

/-- Models the Go standard library test `net.ParseIP(s) != nil` on the inputs
this code base feeds it: dotted-quad IPv4 strings parse, every other
whitespace-delimited word of a signal description does not. -/
def parseIP (s : String) : Bool :=
  match splitOnChar '.' s.toList with
  | [a, b, c, d] => parseOctet a && parseOctet b && parseOctet c && parseOctet d
  | _ => false

/-- Cluster of related domains (analyzer cluster engine). -/
structure Cluster where
  ID : String
  Confidence : ℚ
  Domains : List String
  SharedSignals : List String
  FirstSeen : ℚ
  LastSeen : ℚ
  SharedResources : List (String × String)
  deriving DecidableEq

/-- The cluster engine registry.  The Go `map[string]*Cluster` is an
association list with unique keys; pointer mutation becomes entry
replacement. -/
structure ClusterEngine where
  Clusters : List (String × Cluster)
  deriving DecidableEq

/-- `extractSignalCategories`: the distinct categories occurring among the
analysis signals.  The Go code collects map keys; only the set of categories
matters downstream (membership tests), first-occurrence order is kept here. -/
def extractSignalCategories (analysis : AnalysisResult) : List String :=
  analysis.Domain.Signals.foldl
    (fun categories signal =>
      if categories.contains signal.Category then categories
      else categories ++ [signal.Category])
    []

/-- `extractSharedSignals`: ids of the INFRA and PAYMENT signals. -/
def extractSharedSignals (analysis : AnalysisResult) : List String :=
  (analysis.Domain.Signals.filter
      (fun signal => signal.Category = "INFRA" ∨ signal.Category = "PAYMENT")).map
    (fun signal => signal.SignalID)

/-- `extractIPFromDescription`: first whitespace field of the description that
parses as an IP address, or `""`. -/
def extractIPFromDescription (desc : String) : String :=
  ((stringFields desc).find? (fun part => parseIP part)).getD ""

/-- `extractWalletFromDescription` helper: the part of the description after
the first colon, or `none` when there is no colon. -/
def afterColon : List Char → Option (List Char)
  | [] => none
  | c :: rest => if c = ':' then some rest else afterColon rest

/-- `extractWalletFromDescription` helper: first space-delimited part whose
trimmed length is strictly between 20 and 50 characters. -/
def firstWalletPart : List (List Char) → String
  | [] => ""
  | p :: rest =>
    let trimmed := charTrim p
    if 20 < trimmed.length ∧ trimmed.length < 50 then String.mk trimmed
    else firstWalletPart rest

/-- `extractWalletFromDescription`: wallet-like token after the first colon. -/
def extractWalletFromDescription (desc : String) : String :=
  match afterColon desc.toList with
  | none => ""
  | some rest => firstWalletPart (splitOnChar ' ' rest)

/-- `extractSharedResources`: heuristic string parsing of signal descriptions
into an `ip` and/or `wallet` resource entry. -/
def extractSharedResources (analysis : AnalysisResult) :
    List (String × String) :=
  analysis.Domain.Signals.foldl
    (fun resources signal =>
      if signal.Category = "INFRA" ∧ containsStr signal.Description "origin IP" then
        let ip := extractIPFromDescription signal.Description
        if ip ≠ "" then mapSet resources "ip" ip else resources
      else if signal.Category = "PAYMENT" ∧
          containsStr signal.Description "cryptocurrency address" then
        let wallet := extractWalletFromDescription signal.Description
        if wallet ≠ "" then mapSet resources "wallet" wallet else resources
      else resources)
    []

/-- `calculateClusterSimilarity`: `0.4` times the fraction of the cluster
shared-signal ids that occur among the analysis signal categories (the inner
Go loop with `break` is a membership test), plus `0.6` times the fraction of
the analysis resources whose key and value both match the cluster; a term
whose denominator is zero is skipped. -/
def calculateClusterSimilarity (cluster : Cluster)
    (analysis : AnalysisResult) : ℚ :=
  let analysisSignals := extractSignalCategories analysis
  let sharedSignalCount :=
    (cluster.SharedSignals.filter
        (fun clusterSignal => analysisSignals.contains clusterSignal)).length
  let score : ℚ :=
    if cluster.SharedSignals.length > 0 then
      (sharedSignalCount : ℚ) / (cluster.SharedSignals.length : ℚ) * (4 / 10)
    else 0
  let analysisResources := extractSharedResources analysis
  let sharedResourceCount :=
    (analysisResources.filter
        (fun r => cluster.SharedResources.lookup r.1 = some r.2)).length
  if analysisResources.length > 0 then
    score +
      (sharedResourceCount : ℚ) / (analysisResources.length : ℚ) * (6 / 10)
  else score

/-- `findBestCluster`: the id of the cluster with the highest similarity,
considering only similarities of at least `0.5`; `""` when no cluster
qualifies.  The Go loop keeps the first cluster that strictly improves on the
running best. -/
def findBestCluster (ce : ClusterEngine) (analysis : AnalysisResult) : String :=
  if ce.Clusters.length = 0 then ""
  else
    (ce.Clusters.foldl
        (fun best p =>
          let score := calculateClusterSimilarity p.2 analysis
          if score > best.2 ∧ score ≥ 5 / 10 then (p.1, score) else best)
        ("", 0)).1

/-- `generateClusterID`: deterministic fingerprint of the domain and its
PAYMENT/INFRA signal ids.  The MD5 digest (truncated to 12 hex characters in
Go) is kept abstract as the function parameter `md5hex12`. -/
def generateClusterID (md5hex12 : String → String) (domain : String)
    (analysis : AnalysisResult) : String :=
  let data :=
    analysis.Domain.Signals.foldl
      (fun data signal =>
        if signal.Category = "PAYMENT" ∨ signal.Category = "INFRA" then
          data ++ signal.SignalID
        else data)
      domain
  md5hex12 data

/-- `updateSharedResources`: copy a fresh resource into the cluster only when
the cluster has no entry for that resource type. -/
def updateSharedResources (cluster : Cluster) (analysis : AnalysisResult) :
    Cluster :=
  let newResources := extractSharedResources analysis
  { cluster with
    SharedResources :=
      newResources.foldl
        (fun acc r =>
          if (acc.lookup r.1).isNone then mapSet acc r.1 r.2 else acc)
        cluster.SharedResources }

/-- `AddDomainToCluster`: append the domain to the best-matching cluster when
one reaches the similarity threshold, otherwise create a new cluster.
`md5hex12` abstracts the MD5 fingerprint and `now` abstracts `time.Now()`.
Returns the new engine state and the chosen cluster id.  The inner `match` is
unreachable in its `none` branch because `findBestCluster` only returns ids of
stored clusters. -/
def AddDomainToCluster (md5hex12 : String → String) (ce : ClusterEngine)
    (domain : String) (analysis : AnalysisResult) (now : ℚ) :
    ClusterEngine × String :=
  let bestClusterID := findBestCluster ce analysis
  if bestClusterID ≠ "" then
    match ce.Clusters.lookup bestClusterID with
    | some cluster =>
      let cluster :=
        { cluster with Domains := cluster.Domains ++ [domain], LastSeen := now }
      let cluster := updateSharedResources cluster analysis
      ({ Clusters := mapSet ce.Clusters bestClusterID cluster }, bestClusterID)
    | none => (ce, bestClusterID)
  else
    let clusterID := generateClusterID md5hex12 domain analysis
    let newCluster : Cluster :=
      { ID := clusterID
        Confidence := 1
        Domains := [domain]
        SharedSignals := extractSharedSignals analysis
        FirstSeen := now
        LastSeen := now
        SharedResources := extractSharedResources analysis }
    ({ Clusters := mapSet ce.Clusters clusterID newCluster }, clusterID)

/-- `UpdateClusterConfidence`: recompute a cluster confidence from its domain,
signal and resource counts, capped at `1.0`.  On an unknown id the Go function
silently returns; it has no error result. -/
def UpdateClusterConfidence (ce : ClusterEngine) (clusterID : String) :
    ClusterEngine :=
  match ce.Clusters.lookup clusterID with
  | none => ce
  | some cluster =>
    let confidence : ℚ :=
      (cluster.Domains.length : ℚ) * (3 / 10) +
        (cluster.SharedSignals.length : ℚ) * (2 / 10) +
        (cluster.SharedResources.length : ℚ) * (3 / 10)
    let confidence := if confidence > 1 then 1 else confidence
    { Clusters :=
        mapSet ce.Clusters clusterID { cluster with Confidence := confidence } }

/-- `MergeClusters`: fold the second cluster into the first (domains and
signal ids deduplicated against the growing first list, resources with the
second cluster winning on key collision, averaged confidence, later
`LastSeen`), then delete the second cluster; error when either id is
absent. -/
def MergeClusters (ce : ClusterEngine) (clusterID1 clusterID2 : String) :
    Except String ClusterEngine :=
  match ce.Clusters.lookup clusterID1, ce.Clusters.lookup clusterID2 with
  | some cluster1, some cluster2 =>
    let mergedDomains :=
      cluster2.Domains.foldl
        (fun acc domain => if acc.contains domain then acc else acc ++ [domain])
        cluster1.Domains
    let mergedSignals :=
      cluster2.SharedSignals.foldl
        (fun acc signal => if acc.contains signal then acc else acc ++ [signal])
        cluster1.SharedSignals
    let mergedResources :=
      cluster2.SharedResources.foldl
        (fun acc r => mapSet acc r.1 r.2)
        cluster1.SharedResources
    let merged :=
      { cluster1 with
        Domains := mergedDomains
        SharedSignals := mergedSignals
        SharedResources := mergedResources
        Confidence := (cluster1.Confidence + cluster2.Confidence) / 2
        LastSeen :=
          if cluster2.LastSeen > cluster1.LastSeen then cluster2.LastSeen
          else cluster1.LastSeen }
    Except.ok
      { Clusters := mapErase (mapSet ce.Clusters clusterID1 merged) clusterID2 }
  | _, _ => Except.error "one or both clusters do not exist"

/-- `ChangeRecord` (`internal/analyzer/monitor.go`). -/
structure ChangeRecord where
  Timestamp : ℚ
  OldScore : ℚ
  NewScore : ℚ
  Reason : String
  Signals : List Signal
  deriving DecidableEq

/-- `DomainMonitor` (`internal/analyzer/monitor.go`).  The stop channel is a
concurrency artifact with no bearing on the per-tick state transition and is
omitted. -/
structure DomainMonitor where
  Domain : String
  LastResult : Option AnalysisResult
  Changes : List ChangeRecord
  Interval : ℚ
  Active : Bool
  deriving DecidableEq

/-- `Monitor` (`internal/analyzer/monitor.go`): the domain registry.  The
reader/writer lock serializes access in Go; the registry itself is the
association list. -/
structure Monitor where
  domains : List (String × DomainMonitor)
  deriving DecidableEq

/-- `detectChanges`: the new signals whose id is absent from the previous
result (the Go code indexes the old signals by id first), plus one synthetic
MONITOR signal when the score moved by more than `0.1` in either direction.
The Go description interpolates the two scores with `%.3f`; the text is
irrelevant to every property proved here and is kept fixed. -/
def detectChanges (oldResult newResult : AnalysisResult) : List Signal :=
  let oldSignals :=
    oldResult.Domain.Signals.foldl
      (fun m signal => mapSet m signal.SignalID signal)
      ([] : List (String × Signal))
  let changes :=
    newResult.Domain.Signals.filter
      (fun newSignal => (oldSignals.lookup newSignal.SignalID).isNone)
  let scoreDiff := newResult.JLIScore - oldResult.JLIScore
  if scoreDiff > 1 / 10 ∨ scoreDiff < -(1 / 10) then
    changes ++
      [{ SignalID := "jli_score_change"
         Category := "MONITOR"
         Description := "JLI score changed"
         Confidence := 1
         Evidence := [] }]
  else changes

/-- One `ticker.C` iteration of `runMonitor` for a domain monitor, with the
freshly produced analysis passed in (`AnalyzeDomain` performs network I/O and
is a collaborator here) and `now` abstracting `time.Now()`: when the monitor
is inactive the goroutine returns without touching state; otherwise changes
against the stored previous result are recorded and the new result becomes the
baseline. -/
def runMonitorTick (monitor : DomainMonitor) (result : AnalysisResult)
    (now : ℚ) : DomainMonitor :=
  if !monitor.Active then monitor
  else
    let monitor : DomainMonitor :=
      match monitor.LastResult with
      | some lastResult =>
        let changes := detectChanges lastResult result
        if changes.length > 0 then
          { monitor with
            Changes :=
              monitor.Changes ++
                [{ Timestamp := now
                   OldScore := lastResult.JLIScore
                   NewScore := result.JLIScore
                   Reason := toString changes.length ++ " changes detected"
                   Signals := changes }] }
        else monitor
      | none => monitor
    { monitor with LastResult := some result }

/-- `RemoveDomain` (`monitor.go`): not-found error for an unmonitored domain,
otherwise the entry is deleted (the stop signal sent to the removed task does
not affect registry state). -/
def RemoveDomain (m : Monitor) (domain : String) : Except String Monitor :=
  match m.domains.lookup domain with
  | none => Except.error ("domain " ++ domain ++ " is not being monitored")
  | some _ => Except.ok { domains := mapErase m.domains domain }

/-- `PauseMonitoring` (`monitor.go`). -/
def PauseMonitoring (m : Monitor) (domain : String) : Except String Monitor :=
  match m.domains.lookup domain with
  | none => Except.error ("domain " ++ domain ++ " is not being monitored")
  | some monitor =>
    Except.ok { domains := mapSet m.domains domain ({ monitor with Active := false } : DomainMonitor) }

/-- `ResumeMonitoring` (`monitor.go`). -/
def ResumeMonitoring (m : Monitor) (domain : String) : Except String Monitor :=
  match m.domains.lookup domain with
  | none => Except.error ("domain " ++ domain ++ " is not being monitored")
  | some monitor =>
    Except.ok { domains := mapSet m.domains domain ({ monitor with Active := true } : DomainMonitor) }

/-- `GetDomainStatus` (`monitor.go`): read-only lookup. -/
def GetDomainStatus (m : Monitor) (domain : String) :
    Except String DomainMonitor :=
  match m.domains.lookup domain with
  | none => Except.error ("domain " ++ domain ++ " is not being monitored")
  | some monitor => Except.ok monitor

/-- `GetChanges` (`monitor.go`): read-only lookup of the change log. -/
def GetChanges (m : Monitor) (domain : String) :
    Except String (List ChangeRecord) :=
  match m.domains.lookup domain with
  | none => Except.error ("domain " ++ domain ++ " is not being monitored")
  | some monitor => Except.ok monitor.Changes

/-! Concrete inputs used by the scenario theorems and witnesses. -/

/-- One signal per scoring category with the confidences of the spec's
concrete scenario: UX 0.8, PAYMENT 0.9, INFRA 0.6, DNS 0.4, CDN 0.3. -/
def scenarioSignals : List Signal :=
  [ { SignalID := "ux_slot", Category := "UX",
      Description := "Found gambling keyword: slot", Confidence := 8 / 10,
      Evidence := [] },
    { SignalID := "payment_qris", Category := "PAYMENT",
      Description := "Found payment method reference: qris",
      Confidence := 9 / 10, Evidence := [] },
    { SignalID := "infra_x_powered_by", Category := "INFRA",
      Description := "Found x-powered-by header: Express",
      Confidence := 6 / 10, Evidence := [] },
    { SignalID := "dns_probe", Category := "DNS",
      Description := "DNS probe signal", Confidence := 4 / 10, Evidence := [] },
    { SignalID := "cdn_cloudflare", Category := "CDN",
      Description := "Domain is protected by Cloudflare CDN",
      Confidence := 3 / 10, Evidence := [] } ]

/-- A profile with all five scoring weights set to `0.3`. -/
def allPoint3Profile : Config :=
  { Scoring :=
      { GamblingUI := 3 / 10
        PaymentSignal := 3 / 10
        InfraCorrelation := 3 / 10
        DomainChurn := 3 / 10
        CDNPattern := 3 / 10 }
    Threshold := { High := 75 / 100, Medium := 50 / 100 } }

/-- The high-confidence INFRA origin-IP signal as `ScanDomain` emits it. -/
def originIPSignal : Signal :=
  { SignalID := "origin_ip_detected"
    Category := "INFRA"
    Description := "Potential origin IP detected behind CDN: 1.2.3.4"
    Confidence := 8 / 10
    Evidence := [] }

/-- An analysis result for `domain` whose only signal is the origin-IP
signal. -/
def mkOriginAnalysis (domain : String) : AnalysisResult :=
  { Domain :=
      { Domain := domain
        FirstSeen := 0
        LastSeen := 0
        CDNProvider := "cloudflare"
        JLIScore := 0
        JLILevel := "LOW"
        ClusterID := none
        Signals := [originIPSignal] }
    JLIScore := 0
    JLILevel := "LOW"
    CategoryBreakdown := []
    ProfileUsed := "standard" }

/-- The similarity formula as claim C5 of the specification words it: `0.4`
times the fraction of the cluster categories that also occur among the
domain's signal categories, plus `0.6` times the fraction of the domain's
extracted resources matching the cluster.  Stated from the specification for
comparison with `calculateClusterSimilarity`; `clusterCategories` stands for
the categories the specification believes the cluster stores. -/
def specClusterSimilarity (clusterCategories : List String) (cluster : Cluster)
    (analysis : AnalysisResult) : ℚ :=
  let domainCategories := extractSignalCategories analysis
  let catTerm : ℚ :=
    if clusterCategories.length > 0 then
      ((clusterCategories.filter
            (fun c => domainCategories.contains c)).length : ℚ) /
          (clusterCategories.length : ℚ) * (4 / 10)
    else 0
  let analysisResources := extractSharedResources analysis
  let resTerm : ℚ :=
    if analysisResources.length > 0 then
      ((analysisResources.filter
            (fun r => cluster.SharedResources.lookup r.1 = some r.2)).length : ℚ) /
          (analysisResources.length : ℚ) * (6 / 10)
    else 0
  catTerm + resTerm

/-- The behavior claim C8 of the specification ascribes to
`UpdateClusterConfidence` on an unknown cluster id: a not-found report.
Stated from the specification for comparison with the implementation, whose Go
signature has no error result at all. -/
def UpdateClusterConfidenceClaimed (ce : ClusterEngine) (clusterID : String) :
    Except String ClusterEngine :=
  match ce.Clusters.lookup clusterID with
  | none => Except.error "cluster not found"
  | some _ => Except.ok (UpdateClusterConfidence ce clusterID)

/-- The cluster that `AddDomainToCluster` builds for `first.example` from
`mkOriginAnalysis "first.example"` (with abstract id and timestamps fixed to
`0`). -/
def originCluster : Cluster :=
  { ID := "c1"
    Confidence := 1
    Domains := ["first.example"]
    SharedSignals := ["origin_ip_detected"]
    FirstSeen := 0
    LastSeen := 0
    SharedResources := [("ip", "1.2.3.4")] }

/-- Proof-support: the cluster that `AddDomainToCluster` creates for a domain
whose analysis is `mkOriginAnalysis domain`, with cluster id `id` and creation
time `t`. -/
def firstOriginCluster (id domain : String) (t : ℚ) : Cluster :=
  { ID := id
    Confidence := 1
    Domains := [domain]
    SharedSignals := ["origin_ip_detected"]
    FirstSeen := t
    LastSeen := t
    SharedResources := [("ip", "1.2.3.4")] }

/-- A sample cluster with two domains, one shared signal and one resource. -/
def clusterA : Cluster :=
  { ID := "a"
    Confidence := 1 / 2
    Domains := ["a1.com", "a2.com"]
    SharedSignals := ["sigA"]
    FirstSeen := 0
    LastSeen := 5
    SharedResources := [("ip", "1.1.1.1")] }

/-- A sample cluster overlapping `clusterA` on one domain and one signal. -/
def clusterB : Cluster :=
  { ID := "b"
    Confidence := 1
    Domains := ["a2.com", "b1.com"]
    SharedSignals := ["sigA", "sigB"]
    FirstSeen := 1
    LastSeen := 9
    SharedResources := [("ip", "2.2.2.2"), ("wallet", "walletB")] }

/-- Proof-support: the cluster that `MergeClusters` stores under the first
id, spelled out as a record. -/
def mergedCluster (cluster1 cluster2 : Cluster) : Cluster :=
  { cluster1 with
    Domains :=
      cluster2.Domains.foldl
        (fun acc domain => if acc.contains domain then acc else acc ++ [domain])
        cluster1.Domains
    SharedSignals :=
      cluster2.SharedSignals.foldl
        (fun acc signal => if acc.contains signal then acc else acc ++ [signal])
        cluster1.SharedSignals
    SharedResources :=
      cluster2.SharedResources.foldl (fun acc r => mapSet acc r.1 r.2)
        cluster1.SharedResources
    Confidence := (cluster1.Confidence + cluster2.Confidence) / 2
    LastSeen :=
      if cluster2.LastSeen > cluster1.LastSeen then cluster2.LastSeen
      else cluster1.LastSeen }

/-- An engine holding only `clusterA`. -/
def oneClusterEngine : ClusterEngine := ⟨[("a", clusterA)]⟩

/-- An engine holding `clusterA` and `clusterB`. -/
def twoClusterEngine : ClusterEngine := ⟨[("a", clusterA), ("b", clusterB)]⟩

/-- An analysis result for `domain` carrying the origin-IP signal plus a CDN
signal, with JLI score `0.5`. -/
def mkScoredAnalysis (domain : String) : AnalysisResult :=
  { Domain :=
      { Domain := domain
        FirstSeen := 0
        LastSeen := 0
        CDNProvider := "cloudflare"
        JLIScore := 1 / 2
        JLILevel := "MEDIUM"
        ClusterID := none
        Signals :=
          [originIPSignal,
            { SignalID := "cdn_cloudflare", Category := "CDN",
              Description := "Domain is protected by Cloudflare CDN",
              Confidence := 2 / 10, Evidence := [] }] }
    JLIScore := 1 / 2
    JLILevel := "MEDIUM"
    CategoryBreakdown := []
    ProfileUsed := "standard" }

/-- Proof-support: the concrete result of merging `clusterB` into
`clusterA`. -/
def mergedABCluster : Cluster :=
  { ID := "a"
    Confidence := 3 / 4
    Domains := ["a1.com", "a2.com", "b1.com"]
    SharedSignals := ["sigA", "sigB"]
    FirstSeen := 0
    LastSeen := 9
    SharedResources := [("ip", "2.2.2.2"), ("wallet", "walletB")] }

/-- Proof-support: the running maximum the aggregation fold keeps for one
category, as an `Option` (absent entries read as `0`). -/
def updMax (b : Option ℚ) (confs : List ℚ) : Option ℚ :=
  confs.foldl (fun acc q => if q > acc.getD 0 then some q else acc) b

/-- Proof-support: the confidences of the signals of one category, in input
order. -/
def categoryConfs (signals : List Signal) (c : String) : List ℚ :=
  (signals.filter (fun s => s.Category = c)).map (fun s => s.Confidence)

/-- Proof-support: the maximum confidence among the signals of one category,
floored at `0`. -/
def categoryMax (signals : List Signal) (c : String) : ℚ :=
  (categoryConfs signals c).foldl max 0

/-- A UX signal of confidence `0.5`. -/
def uxHalfSignal : Signal :=
  { SignalID := "ux_a", Category := "UX", Description := "", Confidence := 1 / 2,
    Evidence := [] }

/-- A UX signal of confidence `0.25`, strictly below `uxHalfSignal`. -/
def uxQuarterSignal : Signal :=
  { SignalID := "ux_b", Category := "UX", Description := "",
    Confidence := 1 / 4, Evidence := [] }

/-- A UX signal of confidence `0`. -/
def uxZeroSignal : Signal :=
  { SignalID := "ux_z", Category := "UX", Description := "", Confidence := 0,
    Evidence := [] }

end Fogger

namespace Fogger

/-- Writing a key stores its value. -/
theorem lookup_mapSet_self {α : Type} (m : List (String × α)) (k : String)
    (v : α) : (mapSet m k v).lookup k = some v := by
  induction m with
  | nil => simp [mapSet, List.lookup]
  | cons p rest ih =>
    obtain ⟨k', v'⟩ := p
    by_cases h : k' = k
    · subst h; simp [mapSet, List.lookup]
    · have hb : (k == k') = false := beq_eq_false_iff_ne.mpr (Ne.symm h)
      simp [mapSet, h, List.lookup, hb, ih]

/-- Writing a key leaves other keys unchanged. -/
theorem lookup_mapSet_ne {α : Type} (m : List (String × α)) {k c : String}
    (v : α) (h : c ≠ k) : (mapSet m k v).lookup c = m.lookup c := by
  have hb : (c == k) = false := beq_eq_false_iff_ne.mpr h
  induction m with
  | nil => simp [mapSet, List.lookup, hb]
  | cons p rest ih =>
    obtain ⟨k', v'⟩ := p
    by_cases hk : k' = k
    · subst hk; simp [mapSet, List.lookup, hb, ih]
    · simp [mapSet, hk, List.lookup, ih]

/-- The aggregation fold, started from any accumulator, looks up one category
as the running maximum of that category's confidences. -/
theorem aggFold_lookup (signals : List Signal) (m : List (String × ℚ))
    (c : String) :
    (signals.foldl
        (fun categoryScores signal =>
          let currentScore := (categoryScores.lookup signal.Category).getD 0
          if signal.Confidence > currentScore then
            mapSet categoryScores signal.Category signal.Confidence
          else categoryScores)
        m).lookup c =
      updMax (m.lookup c) (categoryConfs signals c) := by
  induction signals generalizing m with
  | nil => simp [updMax, categoryConfs]
  | cons s rest ih =>
    simp only [List.foldl_cons]
    rw [ih]
    by_cases hc : s.Category = c
    · by_cases hgt : s.Confidence > (m.lookup s.Category).getD 0
      · rw [if_pos hgt]
        have h1 : (mapSet m s.Category s.Confidence).lookup c = some s.Confidence := by
          rw [← hc]; exact lookup_mapSet_self m s.Category s.Confidence
        rw [h1]
        have h2 : categoryConfs (s :: rest) c = s.Confidence :: categoryConfs rest c := by
          simp [categoryConfs, List.filter, hc]
        rw [h2]
        simp only [updMax, List.foldl_cons]
        rw [if_pos (by rw [hc] at hgt; exact hgt)]
      · rw [if_neg hgt]
        have h2 : categoryConfs (s :: rest) c = s.Confidence :: categoryConfs rest c := by
          simp [categoryConfs, List.filter, hc]
        rw [h2]
        simp only [updMax, List.foldl_cons]
        rw [if_neg (by rw [hc] at hgt; exact hgt)]
    · have h2 : categoryConfs (s :: rest) c = categoryConfs rest c := by
        simp [categoryConfs, List.filter, hc]
      rw [h2]
      by_cases hgt : s.Confidence > (m.lookup s.Category).getD 0
      · rw [if_pos hgt, lookup_mapSet_ne m s.Confidence (fun hcc => hc hcc.symm)]
      · rw [if_neg hgt]

/-- `updMax` over a nonnegative floor agrees with the max-fold. -/
theorem updMax_eq_maxFold (confs : List ℚ) :
    ∀ x : ℚ, 0 ≤ x →
      updMax (if 0 < x then some x else none) confs =
        (if 0 < confs.foldl max x then some (confs.foldl max x) else none) := by
  induction confs with
  | nil => intro x hx; simp [updMax]
  | cons q l ih =>
    intro x hx
    have hget : (if 0 < x then some x else none : Option ℚ).getD 0 = x := by
      split_ifs with h
      · rfl
      · simp; linarith
    simp only [updMax, List.foldl_cons]
    by_cases hq : q > x
    · have hstep : (if q > (if 0 < x then some x else none : Option ℚ).getD 0
          then some q else (if 0 < x then some x else none)) = some q := by
        rw [hget, if_pos hq]
      have hmax : max x q = q := max_eq_right (le_of_lt hq)
      have hq0 : 0 < q := lt_of_le_of_lt hx hq
      calc (List.foldl (fun acc r => if r > acc.getD 0 then some r else acc)
              (if q > (if 0 < x then some x else none : Option ℚ).getD 0
                then some q else (if 0 < x then some x else none)) l)
          = updMax (if 0 < q then some q else none) l := by
            rw [hstep, if_pos hq0]; rfl
        _ = _ := by rw [ih q (le_of_lt hq0), hmax]
    · have hstep : (if q > (if 0 < x then some x else none : Option ℚ).getD 0
          then some q else (if 0 < x then some x else none)) =
            (if 0 < x then some x else none) := by
        rw [hget, if_neg hq]
      have hmax : max x q = x := max_eq_left (le_of_not_lt hq)
      calc (List.foldl (fun acc r => if r > acc.getD 0 then some r else acc)
              (if q > (if 0 < x then some x else none : Option ℚ).getD 0
                then some q else (if 0 < x then some x else none)) l)
          = updMax (if 0 < x then some x else none) l := by rw [hstep]; rfl
        _ = _ := by rw [ih x hx, hmax]

/-- Both clamp branches of the scoring pipeline land in the unit interval. -/
theorem clamp01_bounds (x : ℚ) :
    0 ≤ (if x > 1 then (1 : ℚ) else if x < 0 then 0 else x) ∧
      (if x > 1 then (1 : ℚ) else if x < 0 then 0 else x) ≤ 1 := by
  split_ifs <;> constructor <;> linarith

/-- C1: for one signal per scoring category with confidences UX 0.8,
PAYMENT 0.9, INFRA 0.6, DNS 0.4, CDN 0.3, under the default profile the
enhanced JLI score is exactly 0.675 and the classified level is MEDIUM. -/
theorem scenario_score_and_level :
    calculateEnhancedJLIScore (calculateCategoryScoresWithSignals scenarioSignals)
        GetDefaultConfig.Scoring scenarioSignals = 675 / 1000 ∧
      classifyJLILevel
          (calculateEnhancedJLIScore
            (calculateCategoryScoresWithSignals scenarioSignals)
            GetDefaultConfig.Scoring scenarioSignals)
          GetDefaultConfig.Threshold = "MEDIUM" := by
  simp +decide [scenarioSignals, GetDefaultConfig, calculateEnhancedJLIScore,
    calculateJLIScore, calculateSignalFactor, calculateTemporalFactor,
    calculateConfidenceFactor, calculateCategoryScoresWithSignals, mapSet,
    classifyJLILevel, List.lookup, List.filter]
  norm_num

/-- C3: for every signal list and every profile passing `validateProfile`,
the enhanced JLI score lies in `[0, 1]`. -/
theorem enhanced_score_in_unit_interval (signals : List Signal) (cfg : Config)
    (hvalid : validateProfile cfg = Except.ok ()) :
    0 ≤ calculateEnhancedJLIScore (calculateCategoryScoresWithSignals signals)
          cfg.Scoring signals ∧
      calculateEnhancedJLIScore (calculateCategoryScoresWithSignals signals)
          cfg.Scoring signals ≤ 1 :=
  clamp01_bounds
    (calculateJLIScore (calculateCategoryScoresWithSignals signals) cfg.Scoring *
      calculateSignalFactor signals * calculateTemporalFactor)

/-- Witness for C3 at the default profile and the empty signal list. -/
theorem enhanced_score_in_unit_interval_witness :
    validateProfile GetDefaultConfig = Except.ok () ∧
      (0 ≤ calculateEnhancedJLIScore
            (calculateCategoryScoresWithSignals []) GetDefaultConfig.Scoring [] ∧
        calculateEnhancedJLIScore (calculateCategoryScoresWithSignals [])
            GetDefaultConfig.Scoring [] ≤ 1) :=
  ⟨by norm_num [validateProfile, scoringWeightSum, GetDefaultConfig],
    enhanced_score_in_unit_interval [] GetDefaultConfig
      (by norm_num [validateProfile, scoringWeightSum, GetDefaultConfig])⟩

/-- C4 counterexample: the all-0.3 profile is invalid (its weights sum to
1.5), yet the load-time `Initialize` path installs it unchanged as the active
configuration and merely flags a log warning — it is not rejected at load
time. -/
theorem load_time_accepts_invalid_weights :
    scoringWeightSum allPoint3Profile.Scoring ≠ 1 ∧
      InitializeValidation allPoint3Profile = (allPoint3Profile, true) := by
  refine ⟨by norm_num [scoringWeightSum, allPoint3Profile], ?_⟩
  norm_num [InitializeValidation, scoringWeightSum, allPoint3Profile]

/-- C4 amended: `validateProfile` accepts a profile exactly when its five
weights sum to exactly `1.0` (no epsilon tolerance), its high threshold is at
least its medium threshold, and both thresholds lie in `[0, 1]`; it rejects
the all-0.3 profile with a descriptive error and never modifies a profile;
load-time `Initialize`, by contrast, installs any profile unchanged. -/
theorem validateProfile_characterization (p : Config) :
    (validateProfile p = Except.ok () ↔
        scoringWeightSum p.Scoring = 1 ∧
          p.Threshold.Medium ≤ p.Threshold.High ∧
          p.Threshold.High ≤ 1 ∧ p.Threshold.Medium ≤ 1 ∧
          0 ≤ p.Threshold.High ∧ 0 ≤ p.Threshold.Medium) ∧
      validateProfile allPoint3Profile =
        Except.error "profile scoring weights do not sum to 1.0" ∧
      (InitializeValidation p).1 = p := by
  refine ⟨?_, by norm_num [validateProfile, scoringWeightSum, allPoint3Profile], rfl⟩
  constructor
  · intro h
    simp only [validateProfile] at h
    by_cases hw : scoringWeightSum p.Scoring = 1
    · rw [if_neg (not_not.mpr hw)] at h
      by_cases ht : p.Threshold.High < p.Threshold.Medium
      · rw [if_pos ht] at h; cases h
      · rw [if_neg ht] at h
        by_cases hb : p.Threshold.High > 1 ∨ p.Threshold.Medium > 1 ∨
            p.Threshold.High < 0 ∨ p.Threshold.Medium < 0
        · rw [if_pos hb] at h; cases h
        · push_neg at hb
          exact ⟨hw, not_lt.mp ht, hb.1, hb.2.1, hb.2.2.1, hb.2.2.2⟩
    · rw [if_pos hw] at h; cases h
  · rintro ⟨hs, hm, hH1, hM1, hH0, hM0⟩
    unfold validateProfile
    rw [if_neg (not_not.mpr hs), if_neg (not_lt.mpr hm), if_neg]
    push_neg
    exact ⟨hH1, hM1, hH0, hM0⟩

/-- The max-fold dominates its starting point. -/
theorem le_foldl_max (l : List ℚ) : ∀ x : ℚ, x ≤ l.foldl max x := by
  induction l with
  | nil => intro x; exact le_refl x
  | cons q t ih =>
    intro x
    exact le_trans (le_max_left x q) (ih (max x q))

/-- C2 counterexample: a single UX signal of confidence `0` leaves the UX
category absent from the aggregate, although the maximum confidence among UX
signals is `0`; the claimed map would hold `some 0`. -/
theorem zero_confidence_category_absent :
    (calculateCategoryScoresWithSignals [uxZeroSignal]).lookup "UX" = none ∧
      uxZeroSignal.Category = "UX" ∧ uxZeroSignal.Confidence = 0 ∧
      (none : Option ℚ) ≠ some 0 := by
  refine ⟨?_, rfl, rfl, by simp⟩
  norm_num [calculateCategoryScoresWithSignals, uxZeroSignal, List.lookup,
    List.foldl_cons, List.foldl_nil]

/-- C2 (amended): the aggregate maps a category to the maximum confidence
among that category's signals whenever that maximum is positive, and omits the
category when it has no signals or only signals of confidence at most `0`; the
empty signal list yields the empty map; and appending a signal whose
confidence is strictly below its category's current (zero-floored) maximum
leaves the aggregate unchanged. -/
theorem categoryScores_characterization (signals : List Signal) (c : String)
    (s : Signal) :
    calculateCategoryScoresWithSignals ([] : List Signal) = [] ∧
      (calculateCategoryScoresWithSignals signals).lookup c =
        (if 0 < categoryMax signals c then some (categoryMax signals c)
          else none) ∧
      ((∀ t ∈ signals, t.Category ≠ c) →
        (calculateCategoryScoresWithSignals signals).lookup c = none) ∧
      (s.Confidence < categoryMax signals s.Category →
        calculateCategoryScoresWithSignals (signals ++ [s]) =
          calculateCategoryScoresWithSignals signals) := by
  have key : ∀ (sigs : List Signal) (d : String),
      (calculateCategoryScoresWithSignals sigs).lookup d =
        (if 0 < categoryMax sigs d then some (categoryMax sigs d) else none) := by
    intro sigs d
    have h0 := aggFold_lookup sigs [] d
    have h1 := updMax_eq_maxFold (categoryConfs sigs d) 0 le_rfl
    rw [if_neg (lt_irrefl 0)] at h1
    calc (calculateCategoryScoresWithSignals sigs).lookup d
        = updMax (List.lookup d []) (categoryConfs sigs d) := h0
      _ = updMax none (categoryConfs sigs d) := by rw [List.lookup]
      _ = _ := h1
  refine ⟨rfl, key signals c, ?_, ?_⟩
  · intro hnone
    have hconfs : categoryConfs signals c = [] := by
      have : signals.filter (fun t => t.Category = c) = [] := by
        rw [List.filter_eq_nil_iff]
        intro t ht
        simpa using hnone t ht
      rw [categoryConfs, this, List.map_nil]
    have hmax : categoryMax signals c = 0 := by
      rw [categoryMax, hconfs, List.foldl_nil]
    rw [key signals c, hmax, if_neg (lt_irrefl 0)]
  · intro hlt
    have hget :
        ((calculateCategoryScoresWithSignals signals).lookup s.Category).getD 0 =
          categoryMax signals s.Category := by
      rw [key signals s.Category]
      split_ifs with h
      · rfl
      · have hge : 0 ≤ categoryMax signals s.Category := le_foldl_max _ 0
        have h0 : categoryMax signals s.Category = 0 := le_antisymm (not_lt.mp h) hge
        rw [h0]; rfl
    have happ :
        calculateCategoryScoresWithSignals (signals ++ [s]) =
          (if s.Confidence >
              ((calculateCategoryScoresWithSignals signals).lookup s.Category).getD 0
            then mapSet (calculateCategoryScoresWithSignals signals) s.Category
              s.Confidence
            else calculateCategoryScoresWithSignals signals) := by
      simp only [calculateCategoryScoresWithSignals, List.foldl_append,
        List.foldl_cons, List.foldl_nil]
    rw [happ, hget, if_neg (lt_asymm hlt)]

/-- Witness for C2's duplicate-suppression clause: appending a UX signal of
confidence `0.25` behind one of confidence `0.5` leaves the aggregate
unchanged. -/
theorem categoryScores_characterization_witness :
    calculateCategoryScoresWithSignals ([uxHalfSignal] ++ [uxQuarterSignal]) =
      calculateCategoryScoresWithSignals [uxHalfSignal] :=
  (categoryScores_characterization [uxHalfSignal] "UX" uxQuarterSignal).2.2.2
    (by norm_num [categoryMax, categoryConfs, uxHalfSignal, uxQuarterSignal,
      List.filter, List.foldl_cons, List.foldl_nil])

/-- C5 counterexample: a cluster seeded from a domain whose single signal has
category INFRA stores the signal id `origin_ip_detected`, not the category;
against a second domain with the identical signal the implementation compares
that id with the category list `[INFRA]` and finds no match, so the computed
similarity is `0.6`, while the specification's formula (categories against
categories, all resources matching) yields `1`. -/
theorem similarity_compares_ids_to_categories :
    extractSharedSignals (mkOriginAnalysis "first.example") =
        ["origin_ip_detected"] ∧
      extractSignalCategories (mkOriginAnalysis "first.example") = ["INFRA"] ∧
      calculateClusterSimilarity originCluster
          (mkOriginAnalysis "second.example") = 6 / 10 ∧
      specClusterSimilarity ["INFRA"] originCluster
          (mkOriginAnalysis "second.example") = 1 ∧
      (6 / 10 : ℚ) ≠ 1 := by
  have hres :
      extractSharedResources (mkOriginAnalysis "second.example") =
        [("ip", "1.2.3.4")] := by decide
  have hcat :
      extractSignalCategories (mkOriginAnalysis "second.example") =
        ["INFRA"] := by decide
  refine ⟨by decide, by decide, ?_, ?_, by norm_num⟩ <;>
    · simp +decide [calculateClusterSimilarity, specClusterSimilarity, hres,
        hcat, originCluster, List.filter, List.lookup]
      try norm_num


/-- Helper: adding a first domain with the origin-IP analysis to an empty
engine creates the expected cluster, and adding a second domain (possibly the
same one) with the identical analysis lands in that cluster, appending the
domain and refreshing `LastSeen`. -/
theorem addTwice_origin (md5hex12 : String → String) (d1 d2 : String)
    (t1 t2 : ℚ) (hid : md5hex12 (d1 ++ "origin_ip_detected") ≠ "") :
    AddDomainToCluster md5hex12 ⟨[]⟩ d1 (mkOriginAnalysis d1) t1 =
        (⟨[(md5hex12 (d1 ++ "origin_ip_detected"),
            firstOriginCluster (md5hex12 (d1 ++ "origin_ip_detected")) d1 t1)]⟩,
          md5hex12 (d1 ++ "origin_ip_detected")) ∧
      AddDomainToCluster md5hex12
          (AddDomainToCluster md5hex12 ⟨[]⟩ d1 (mkOriginAnalysis d1) t1).1
          d2 (mkOriginAnalysis d2) t2 =
        (⟨[(md5hex12 (d1 ++ "origin_ip_detected"),
            { firstOriginCluster (md5hex12 (d1 ++ "origin_ip_detected")) d1 t1 with
              Domains := [d1, d2], LastSeen := t2 })]⟩,
          md5hex12 (d1 ++ "origin_ip_detected")) := by
  have h1 :
      AddDomainToCluster md5hex12 ⟨[]⟩ d1 (mkOriginAnalysis d1) t1 =
        (⟨[(md5hex12 (d1 ++ "origin_ip_detected"),
            firstOriginCluster (md5hex12 (d1 ++ "origin_ip_detected")) d1 t1)]⟩,
          md5hex12 (d1 ++ "origin_ip_detected")) := rfl
  refine ⟨h1, ?_⟩
  have hres : extractSharedResources (mkOriginAnalysis d2) = [("ip", "1.2.3.4")] := rfl
  have hcat : extractSignalCategories (mkOriginAnalysis d2) = ["INFRA"] := rfl
  have hsim :
      calculateClusterSimilarity
          (firstOriginCluster (md5hex12 (d1 ++ "origin_ip_detected")) d1 t1)
          (mkOriginAnalysis d2) = 6 / 10 := by
    simp +decide [calculateClusterSimilarity, hres, hcat, firstOriginCluster,
      List.filter, List.lookup]
    try norm_num
  have hbest :
      findBestCluster
          ⟨[(md5hex12 (d1 ++ "origin_ip_detected"),
              firstOriginCluster (md5hex12 (d1 ++ "origin_ip_detected")) d1 t1)]⟩
          (mkOriginAnalysis d2) = md5hex12 (d1 ++ "origin_ip_detected") := by
    simp only [findBestCluster, List.length_cons, List.length_nil,
      List.foldl_cons, List.foldl_nil, hsim]
    norm_num
  rw [h1]
  simp only [AddDomainToCluster, hbest, if_pos hid, List.lookup,
    beq_self_eq_true]
  simp only [updateSharedResources, hres, List.foldl_cons, List.foldl_nil,
    firstOriginCluster, List.lookup, mapSet, if_pos rfl]
  simp +decide [List.lookup, beq_self_eq_true]

/-- C6: starting from an empty cluster engine, adding two distinct domains
whose analyses each carry the identical high-confidence INFRA origin-IP
signal (description containing "origin IP" followed by the parseable address
1.2.3.4) puts both in one cluster: the second `AddDomainToCluster` returns
the id created by the first, and that cluster then lists both domains. -/
theorem shared_origin_ip_clusters_together (md5hex12 : String → String)
    (d1 d2 : String) (t1 t2 : ℚ) (hdist : d1 ≠ d2)
    (hid : md5hex12 (d1 ++ "origin_ip_detected") ≠ "") :
    (AddDomainToCluster md5hex12
          (AddDomainToCluster md5hex12 ⟨[]⟩ d1 (mkOriginAnalysis d1) t1).1
          d2 (mkOriginAnalysis d2) t2).2 =
        (AddDomainToCluster md5hex12 ⟨[]⟩ d1 (mkOriginAnalysis d1) t1).2 ∧
      ((AddDomainToCluster md5hex12
              (AddDomainToCluster md5hex12 ⟨[]⟩ d1 (mkOriginAnalysis d1) t1).1
              d2 (mkOriginAnalysis d2) t2).1.Clusters.lookup
            (AddDomainToCluster md5hex12 ⟨[]⟩ d1 (mkOriginAnalysis d1) t1).2).map
          Cluster.Domains =
        some [d1, d2] := by
  obtain ⟨h1, h2⟩ := addTwice_origin md5hex12 d1 d2 t1 t2 hid
  rw [h2, h1]
  simp [List.lookup, beq_self_eq_true]

/-- Witness for C6 with a concrete hash function, domains and times. -/
theorem shared_origin_ip_clusters_together_witness :
    (AddDomainToCluster (fun _ => "c1hash")
          (AddDomainToCluster (fun _ => "c1hash") ⟨[]⟩ "a.com"
            (mkOriginAnalysis "a.com") 0).1
          "b.com" (mkOriginAnalysis "b.com") 1).2 =
        (AddDomainToCluster (fun _ => "c1hash") ⟨[]⟩ "a.com"
          (mkOriginAnalysis "a.com") 0).2 ∧
      ((AddDomainToCluster (fun _ => "c1hash")
              (AddDomainToCluster (fun _ => "c1hash") ⟨[]⟩ "a.com"
                (mkOriginAnalysis "a.com") 0).1
              "b.com" (mkOriginAnalysis "b.com") 1).1.Clusters.lookup
            (AddDomainToCluster (fun _ => "c1hash") ⟨[]⟩ "a.com"
              (mkOriginAnalysis "a.com") 0).2).map
          Cluster.Domains =
        some ["a.com", "b.com"] :=
  shared_origin_ip_clusters_together (fun _ => "c1hash") "a.com" "b.com" 0 1
    (by decide) (by decide)


/-- A key whose entry was deleted no longer resolves. -/
theorem lookup_mapErase_self {α : Type} (m : List (String × α)) (k : String) :
    (mapErase m k).lookup k = none := by
  induction m with
  | nil => rfl
  | cons p t ih =>
    obtain ⟨k1, v1⟩ := p
    by_cases h : k1 = k
    · subst h
      simpa [mapErase, List.filter_cons] using ih
    · have hb : (k == k1) = false := beq_eq_false_iff_ne.mpr (fun he => h he.symm)
      simpa [mapErase, List.filter_cons, h, List.lookup, hb] using ih

/-- Deleting one key leaves the other keys unchanged. -/
theorem lookup_mapErase_ne {α : Type} (m : List (String × α)) {k e : String}
    (h : k ≠ e) : (mapErase m e).lookup k = m.lookup k := by
  induction m with
  | nil => rfl
  | cons p t ih =>
    obtain ⟨k1, v1⟩ := p
    by_cases he : k1 = e
    · subst he
      have hb : (k == k1) = false := beq_eq_false_iff_ne.mpr h
      simpa [mapErase, List.filter_cons, List.lookup, hb] using ih
    · by_cases hk : k = k1
      · subst hk
        simp [mapErase, List.filter_cons, he, List.lookup]
      · have hb : (k == k1) = false := beq_eq_false_iff_ne.mpr hk
        simpa [mapErase, List.filter_cons, he, List.lookup, hb] using ih

/-- A key outside the key list of an association map resolves to nothing. -/
theorem lookup_none_of_not_mem_keys {α : Type} (m : List (String × α))
    (k : String) (h : k ∉ m.map Prod.fst) : m.lookup k = none := by
  induction m with
  | nil => rfl
  | cons p t ih =>
    obtain ⟨k1, v1⟩ := p
    simp only [List.map_cons, List.mem_cons] at h
    push_neg at h
    have hb : (k == k1) = false := beq_eq_false_iff_ne.mpr h.1
    simpa [List.lookup, hb] using ih h.2

/-- A successful lookup exhibits a stored entry. -/
theorem mem_of_lookup_eq_some {α : Type} (m : List (String × α)) (k : String)
    (v : α) (h : m.lookup k = some v) : (k, v) ∈ m := by
  induction m with
  | nil => cases h
  | cons p t ih =>
    obtain ⟨k1, v1⟩ := p
    by_cases hk : k = k1
    · subst hk
      simp only [List.lookup, beq_self_eq_true] at h
      cases h
      exact List.mem_cons_self _ _
    · have hb : (k == k1) = false := beq_eq_false_iff_ne.mpr hk
      simp only [List.lookup, hb] at h
      exact List.mem_cons_of_mem _ (ih h)

/-- Entries of a map after a write come from the old map or are the written
pair. -/
theorem mem_mapSet {α : Type} (m : List (String × α)) (k : String) (v : α)
    (p : String × α) : p ∈ mapSet m k v → p ∈ m ∨ p = (k, v) := by
  induction m with
  | nil => intro h; simpa [mapSet] using h
  | cons q t ih =>
    intro h
    obtain ⟨k1, v1⟩ := q
    by_cases hk : k1 = k
    · subst hk
      simp only [mapSet, if_pos rfl] at h
      rcases List.mem_cons.mp h with h1 | h1
      · exact Or.inr h1
      · exact Or.inl (List.mem_cons_of_mem _ h1)
    · simp only [mapSet, if_neg hk] at h
      rcases List.mem_cons.mp h with h1 | h1
      · exact Or.inl (by simp [h1])
      · rcases ih h1 with h2 | h2
        · exact Or.inl (List.mem_cons_of_mem _ h2)
        · exact Or.inr h2

/-- Membership in the deduplicating append fold used by `MergeClusters`. -/
theorem mem_dedupFold (l : List String) :
    ∀ (acc : List String) (x : String),
      (x ∈ l.foldl (fun a d => if a.contains d then a else a ++ [d]) acc ↔
        x ∈ acc ∨ x ∈ l) := by
  induction l with
  | nil => intro acc x; simp
  | cons d t ih =>
    intro acc x
    simp only [List.foldl_cons]
    rw [ih]
    by_cases hc : acc.contains d
    · have hd : d ∈ acc := by simpa using hc
      rw [if_pos hc]
      simp only [List.mem_cons]
      constructor
      · rintro (h | h)
        · exact Or.inl h
        · exact Or.inr (Or.inr h)
      · rintro (h | h | h)
        · exact Or.inl h
        · exact Or.inl (h ▸ hd)
        · exact Or.inr h
    · rw [if_neg hc]
      simp only [List.mem_append, List.mem_singleton, List.mem_cons]
      tauto

/-- The deduplicating append fold preserves duplicate-freedom. -/
theorem nodup_dedupFold (l : List String) :
    ∀ acc : List String, acc.Nodup →
      (l.foldl (fun a d => if a.contains d then a else a ++ [d]) acc).Nodup := by
  induction l with
  | nil => intro acc h; simpa
  | cons d t ih =>
    intro acc h
    simp only [List.foldl_cons]
    by_cases hc : acc.contains d
    · rw [if_pos hc]; exact ih acc h
    · rw [if_neg hc]
      refine ih _ ?_
      have hd : d ∉ acc := by simpa using hc
      simp [List.nodup_append, h, hd]

/-- The resource-merge fold resolves a key to the second map's entry first
(second map wins), falling back to the accumulator. -/
theorem lookup_resFold (entries : List (String × String)) :
    ∀ (acc : List (String × String)) (k : String),
      (entries.map Prod.fst).Nodup →
      (entries.foldl (fun a r => mapSet a r.1 r.2) acc).lookup k =
        (entries.lookup k).or (acc.lookup k) := by
  induction entries with
  | nil => intro acc k _; simp [List.lookup, Option.or]
  | cons p t ih =>
    intro acc k h
    obtain ⟨k1, v1⟩ := p
    simp only [List.map_cons, List.nodup_cons] at h
    simp only [List.foldl_cons]
    rw [ih _ k h.2]
    by_cases hk : k = k1
    · subst hk
      have ht : t.lookup k = none := lookup_none_of_not_mem_keys t k h.1
      rw [ht, lookup_mapSet_self]
      simp [List.lookup, Option.or]
    · have hb : (k == k1) = false := beq_eq_false_iff_ne.mpr hk
      rw [lookup_mapSet_ne _ _ hk]
      simp [List.lookup, hb]


/-- C7 counterexample: merging a cluster with itself succeeds (both ids
exist) but deletes the cluster outright, so afterwards cluster `a` does not
hold the merged domain list — it is gone. -/
theorem merge_same_id_deletes_cluster :
    oneClusterEngine.Clusters.lookup "a" = some clusterA ∧
      MergeClusters oneClusterEngine "a" "a" = Except.ok ⟨[]⟩ :=
  ⟨rfl, rfl⟩

/-- C7 (amended): when both ids exist and are distinct, `MergeClusters a b`
replaces cluster `a` by the merge — domains and shared-signal ids are the
set-unions (duplicate-free when `a` was), resources resolve with `b` winning
on key collision, confidence is the mean, `LastSeen` the later timestamp —
and deletes cluster `b`; when either id is absent it returns the error with
no effect; merging an id with itself instead deletes the cluster. -/
theorem mergeClusters_characterization (ce : ClusterEngine)
    (id1 id2 : String) :
    ((ce.Clusters.lookup id1 = none ∨ ce.Clusters.lookup id2 = none) →
        MergeClusters ce id1 id2 =
          Except.error "one or both clusters do not exist") ∧
      (∀ c1 c2 : Cluster, id1 ≠ id2 →
        ce.Clusters.lookup id1 = some c1 →
        ce.Clusters.lookup id2 = some c2 →
        (c2.SharedResources.map Prod.fst).Nodup →
        ∃ ce' : ClusterEngine, MergeClusters ce id1 id2 = Except.ok ce' ∧
          ce'.Clusters.lookup id2 = none ∧
          ∃ m : Cluster, ce'.Clusters.lookup id1 = some m ∧
            (∀ d, d ∈ m.Domains ↔ d ∈ c1.Domains ∨ d ∈ c2.Domains) ∧
            (c1.Domains.Nodup → m.Domains.Nodup) ∧
            (∀ sg, sg ∈ m.SharedSignals ↔
              sg ∈ c1.SharedSignals ∨ sg ∈ c2.SharedSignals) ∧
            (∀ k, m.SharedResources.lookup k =
              (c2.SharedResources.lookup k).or (c1.SharedResources.lookup k)) ∧
            m.Confidence = (c1.Confidence + c2.Confidence) / 2 ∧
            m.LastSeen = max c1.LastSeen c2.LastSeen ∧
            m.FirstSeen = c1.FirstSeen ∧ m.ID = c1.ID) := by
  constructor
  · intro hor
    rcases hA : ce.Clusters.lookup id1 with _ | c1 <;>
      rcases hB : ce.Clusters.lookup id2 with _ | c2 <;>
        simp only [MergeClusters, hA, hB]
    rcases hor with h | h
    · rw [hA] at h; cases h
    · rw [hB] at h; cases h
  · intro c1 c2 hne h1 h2 hkeys
    refine
      ⟨⟨mapErase (mapSet ce.Clusters id1 (mergedCluster c1 c2)) id2⟩,
        ?_, lookup_mapErase_self _ id2, mergedCluster c1 c2,
        by rw [lookup_mapErase_ne _ hne, lookup_mapSet_self],
        fun d => mem_dedupFold c2.Domains c1.Domains d,
        fun hnd => nodup_dedupFold c2.Domains c1.Domains hnd,
        fun sg => mem_dedupFold c2.SharedSignals c1.SharedSignals sg,
        fun k => lookup_resFold c2.SharedResources c1.SharedResources k hkeys,
        rfl, ?_, rfl, rfl⟩
    · simp only [MergeClusters, h1, h2, mergedCluster]
    · show (if c2.LastSeen > c1.LastSeen then c2.LastSeen else c1.LastSeen) =
        max c1.LastSeen c2.LastSeen
      split_ifs with hgt
      · exact (max_eq_right (le_of_lt hgt)).symm
      · exact (max_eq_left (le_of_not_lt hgt)).symm

/-- Witness for C7 on a concrete two-cluster engine. -/
theorem mergeClusters_characterization_witness :
    ∃ ce' : ClusterEngine,
      MergeClusters twoClusterEngine "a" "b" = Except.ok ce' ∧
        ce'.Clusters.lookup "b" = none ∧
        ∃ m : Cluster, ce'.Clusters.lookup "a" = some m ∧
          (∀ d, d ∈ m.Domains ↔ d ∈ clusterA.Domains ∨ d ∈ clusterB.Domains) ∧
          (clusterA.Domains.Nodup → m.Domains.Nodup) ∧
          (∀ sg, sg ∈ m.SharedSignals ↔
            sg ∈ clusterA.SharedSignals ∨ sg ∈ clusterB.SharedSignals) ∧
          (∀ k, m.SharedResources.lookup k =
            (clusterB.SharedResources.lookup k).or
              (clusterA.SharedResources.lookup k)) ∧
          m.Confidence = (clusterA.Confidence + clusterB.Confidence) / 2 ∧
          m.LastSeen = max clusterA.LastSeen clusterB.LastSeen ∧
          m.FirstSeen = clusterA.FirstSeen ∧ m.ID = clusterA.ID :=
  (mergeClusters_characterization twoClusterEngine "a" "b").2 clusterA clusterB
    (by decide) rfl rfl (by decide)


/-- C8 counterexample: on an unknown cluster id, `UpdateClusterConfidence`
leaves the registry untouched but reports nothing — the Go function returns
no error value at all, while the specification demands a not-found report
(compare `UpdateClusterConfidenceClaimed`). -/
theorem updateConfidence_unknown_silent :
    oneClusterEngine.Clusters.lookup "missing" = none ∧
      UpdateClusterConfidence oneClusterEngine "missing" = oneClusterEngine ∧
      UpdateClusterConfidenceClaimed oneClusterEngine "missing" =
        Except.error "cluster not found" :=
  ⟨rfl, rfl, rfl⟩

/-- C8 (amended): operations addressed to an unknown domain or cluster id
leave all state unchanged; `MergeClusters` and the five Monitor operations
report not-found errors, while `UpdateClusterConfidence` silently returns the
engine unchanged without any report. -/
theorem unknown_id_operations (ce : ClusterEngine) (m : Monitor)
    (d cid id1 id2 : String)
    (hm : m.domains.lookup d = none)
    (hc : ce.Clusters.lookup id1 = none ∨ ce.Clusters.lookup id2 = none)
    (hcid : ce.Clusters.lookup cid = none) :
    MergeClusters ce id1 id2 =
        Except.error "one or both clusters do not exist" ∧
      RemoveDomain m d =
        Except.error ("domain " ++ d ++ " is not being monitored") ∧
      PauseMonitoring m d =
        Except.error ("domain " ++ d ++ " is not being monitored") ∧
      ResumeMonitoring m d =
        Except.error ("domain " ++ d ++ " is not being monitored") ∧
      GetDomainStatus m d =
        Except.error ("domain " ++ d ++ " is not being monitored") ∧
      GetChanges m d =
        Except.error ("domain " ++ d ++ " is not being monitored") ∧
      UpdateClusterConfidence ce cid = ce := by
  refine ⟨?_, ?_, ?_, ?_, ?_, ?_, ?_⟩
  · rcases hA : ce.Clusters.lookup id1 with _ | c1 <;>
      rcases hB : ce.Clusters.lookup id2 with _ | c2 <;>
        simp only [MergeClusters, hA, hB]
    rcases hc with h | h
    · rw [hA] at h; cases h
    · rw [hB] at h; cases h
  · simp only [RemoveDomain, hm]
  · simp only [PauseMonitoring, hm]
  · simp only [ResumeMonitoring, hm]
  · simp only [GetDomainStatus, hm]
  · simp only [GetChanges, hm]
  · simp only [UpdateClusterConfidence, hcid]

/-- Witness for C8 on a concrete engine, an empty monitor and unknown ids. -/
theorem unknown_id_operations_witness :
    MergeClusters oneClusterEngine "nope" "a" =
        Except.error "one or both clusters do not exist" ∧
      RemoveDomain (⟨[]⟩ : Monitor) "x.com" =
        Except.error ("domain " ++ "x.com" ++ " is not being monitored") ∧
      PauseMonitoring (⟨[]⟩ : Monitor) "x.com" =
        Except.error ("domain " ++ "x.com" ++ " is not being monitored") ∧
      ResumeMonitoring (⟨[]⟩ : Monitor) "x.com" =
        Except.error ("domain " ++ "x.com" ++ " is not being monitored") ∧
      GetDomainStatus (⟨[]⟩ : Monitor) "x.com" =
        Except.error ("domain " ++ "x.com" ++ " is not being monitored") ∧
      GetChanges (⟨[]⟩ : Monitor) "x.com" =
        Except.error ("domain " ++ "x.com" ++ " is not being monitored") ∧
      UpdateClusterConfidence oneClusterEngine "zzz" = oneClusterEngine :=
  unknown_id_operations oneClusterEngine ⟨[]⟩ "x.com" "zzz" "nope" "a" rfl
    (Or.inl rfl) rfl


/-- C10 counterexample: `AddDomainToCluster` performs no membership check, so
re-adding a domain that matches its own cluster (here via the shared origin-IP
resource) appends it a second time: the cluster's domain list is
`[a.com, a.com]`, which is not duplicate-free. -/
theorem readd_duplicates_domain :
    ((AddDomainToCluster (fun _ => "cid")
            (AddDomainToCluster (fun _ => "cid") ⟨[]⟩ "a.com"
              (mkOriginAnalysis "a.com") 0).1
            "a.com" (mkOriginAnalysis "a.com") 1).1.Clusters.lookup
          "cid").map Cluster.Domains =
        some ["a.com", "a.com"] ∧
      ¬ (["a.com", "a.com"] : List String).Nodup := by
  obtain ⟨h1, h2⟩ :=
    addTwice_origin (fun _ => "cid") "a.com" "a.com" 0 1 (by decide)
  rw [h2]
  constructor
  · simp [List.lookup, firstOriginCluster]
  · decide

/-- C10 (amended): `MergeClusters` preserves duplicate-freedom of every
cluster's domain list, but `AddDomainToCluster` does not, so the domain lists
are not sets in general. -/
theorem mergeClusters_preserves_nodup_domains (ce : ClusterEngine)
    (id1 id2 : String) (ce' : ClusterEngine)
    (hok : MergeClusters ce id1 id2 = Except.ok ce')
    (hN : ∀ p ∈ ce.Clusters, p.2.Domains.Nodup) :
    ∀ p ∈ ce'.Clusters, p.2.Domains.Nodup := by
  rcases hA : ce.Clusters.lookup id1 with _ | c1 <;>
    rcases hB : ce.Clusters.lookup id2 with _ | c2 <;>
      simp only [MergeClusters, hA, hB] at hok
  · cases hok
  · cases hok
  · cases hok
  · cases hok
    intro p hp
    have hp' := (List.mem_filter.mp hp).1
    rcases mem_mapSet _ _ _ _ hp' with h | h
    · exact hN p h
    · rw [h]
      exact nodup_dedupFold c2.Domains c1.Domains
        (hN (id1, c1) (mem_of_lookup_eq_some _ _ _ hA))

/-- Witness for C10: merging the two sample clusters leaves the merged
cluster's domain list duplicate-free. -/
theorem mergeClusters_preserves_nodup_domains_witness :
    mergedABCluster.Domains.Nodup :=
  mergeClusters_preserves_nodup_domains twoClusterEngine "a" "b"
    ⟨[("a", mergedABCluster)]⟩
    (by
      simp +decide [MergeClusters, twoClusterEngine, clusterA, clusterB,
        mergedABCluster, mapSet, mapErase, List.lookup, List.filter,
        List.foldl_cons, List.foldl_nil]
      try norm_num)
    (by decide)
    ("a", mergedABCluster) (List.mem_cons_self _ _)


/-- The id-indexed map `detectChanges` builds over the old signals misses a
key exactly when no old signal carries that id. -/
theorem lookup_idMapFold (signals : List Signal) (k : String) :
    ∀ acc : List (String × Signal),
      ((signals.foldl (fun m signal => mapSet m signal.SignalID signal)
            acc).lookup k = none ↔
        (acc.lookup k = none ∧ ∀ o ∈ signals, o.SignalID ≠ k)) := by
  induction signals with
  | nil => intro acc; simp
  | cons s t ih =>
    intro acc
    simp only [List.foldl_cons]
    rw [ih]
    by_cases hk : s.SignalID = k
    · subst hk
      rw [lookup_mapSet_self]
      constructor
      · rintro ⟨h, -⟩; cases h
      · rintro ⟨-, hall⟩
        exact absurd rfl (hall s (List.mem_cons_self s t))
    · rw [lookup_mapSet_ne _ _ (fun he => hk he.symm)]
      simp [List.forall_mem_cons, hk]

/-- `detectChanges` returns a nonempty list exactly when the score moved by
more than `0.1` in absolute value or some new signal id is absent from the
old result. -/
theorem detectChanges_pos_iff (oldR newR : AnalysisResult) :
    0 < (detectChanges oldR newR).length ↔
      1 / 10 < |newR.JLIScore - oldR.JLIScore| ∨
        ∃ s ∈ newR.Domain.Signals,
          ∀ o ∈ oldR.Domain.Signals, o.SignalID ≠ s.SignalID := by
  have hfilter :
      ∀ s : Signal,
        (((oldR.Domain.Signals.foldl
              (fun m signal => mapSet m signal.SignalID signal)
              ([] : List (String × Signal))).lookup s.SignalID).isNone = true ↔
          ∀ o ∈ oldR.Domain.Signals, o.SignalID ≠ s.SignalID) := by
    intro s
    rw [Option.isNone_iff_eq_none,
      lookup_idMapFold oldR.Domain.Signals s.SignalID []]
    simp [List.lookup]
  by_cases hd : newR.JLIScore - oldR.JLIScore > 1 / 10 ∨
      newR.JLIScore - oldR.JLIScore < -(1 / 10)
  · refine iff_of_true ?_ (Or.inl ?_)
    · simp only [detectChanges, if_pos hd]
      simp
    · rcases hd with h | h
      · exact lt_of_lt_of_le h (le_abs_self _)
      · exact lt_of_lt_of_le (by linarith) (neg_le_abs _)
  · push_neg at hd
    have habs : ¬ 1 / 10 < |newR.JLIScore - oldR.JLIScore| :=
      not_lt.mpr (abs_le.mpr ⟨by linarith [hd.2], hd.1⟩)
    rw [detectChanges]
    rw [if_neg (by push_neg; exact hd)]
    rw [List.length_pos, Ne, List.filter_eq_nil_iff]
    push_neg
    constructor
    · rintro ⟨a, ha, hpa⟩
      exact Or.inr ⟨a, ha, (hfilter a).mp (by simpa using hpa)⟩
    · rintro (h | ⟨a, ha, hpa⟩)
      · exact absurd h habs
      · exact ⟨a, ha, by simpa using (hfilter a).mpr hpa⟩

/-- C9: on an active monitor tick with a stored previous result, exactly one
`ChangeRecord` is appended when the absolute JLI score delta exceeds `0.1` or
the new result carries a signal id absent from the previous one; otherwise
the change log is untouched; in both cases the new result becomes the stored
baseline. -/
theorem monitor_tick_change_detection (dm : DomainMonitor)
    (result prev : AnalysisResult) (now : ℚ)
    (hA : dm.Active = true) (hL : dm.LastResult = some prev) :
    ((runMonitorTick dm result now).Changes.length = dm.Changes.length + 1 ↔
        1 / 10 < |result.JLIScore - prev.JLIScore| ∨
          ∃ s ∈ result.Domain.Signals,
            ∀ o ∈ prev.Domain.Signals, o.SignalID ≠ s.SignalID) ∧
      ((runMonitorTick dm result now).Changes.length = dm.Changes.length + 1 ∨
        (runMonitorTick dm result now).Changes = dm.Changes) ∧
      (runMonitorTick dm result now).LastResult = some result := by
  have hdc := detectChanges_pos_iff prev result
  simp only [runMonitorTick, hA, hL, Bool.not_true, Bool.false_eq_true,
    if_false]
  by_cases hc : 0 < (detectChanges prev result).length
  · rw [if_pos (by simpa using hc)]
    exact ⟨iff_of_true (by simp) (hdc.mp hc), Or.inl (by simp), by simp⟩
  · rw [if_neg (by simpa using hc)]
    exact ⟨iff_of_false (by simp) (fun h => hc (hdc.mpr h)), Or.inr (by simp),
      by simp⟩

/-- Witness for C9: a tick whose fresh result adds a new signal id appends
exactly one change record and replaces the baseline. -/
theorem monitor_tick_change_detection_witness :
    ((runMonitorTick
            { Domain := "a.com", LastResult := some (mkOriginAnalysis "a.com"),
              Changes := [], Interval := 60, Active := true }
            (mkScoredAnalysis "a.com") 7).Changes.length = ([] : List ChangeRecord).length + 1 ↔
        1 / 10 < |(mkScoredAnalysis "a.com").JLIScore - (mkOriginAnalysis "a.com").JLIScore| ∨
          ∃ s ∈ (mkScoredAnalysis "a.com").Domain.Signals,
            ∀ o ∈ (mkOriginAnalysis "a.com").Domain.Signals,
              o.SignalID ≠ s.SignalID) ∧
      ((runMonitorTick
            { Domain := "a.com", LastResult := some (mkOriginAnalysis "a.com"),
              Changes := [], Interval := 60, Active := true }
            (mkScoredAnalysis "a.com") 7).Changes.length = ([] : List ChangeRecord).length + 1 ∨
        (runMonitorTick
            { Domain := "a.com", LastResult := some (mkOriginAnalysis "a.com"),
              Changes := [], Interval := 60, Active := true }
            (mkScoredAnalysis "a.com") 7).Changes = []) ∧
      (runMonitorTick
          { Domain := "a.com", LastResult := some (mkOriginAnalysis "a.com"),
            Changes := [], Interval := 60, Active := true }
          (mkScoredAnalysis "a.com") 7).LastResult =
        some (mkScoredAnalysis "a.com") :=
  monitor_tick_change_detection
    { Domain := "a.com", LastResult := some (mkOriginAnalysis "a.com"),
      Changes := [], Interval := 60, Active := true }
    (mkScoredAnalysis "a.com") (mkOriginAnalysis "a.com") 7 rfl rfl


/-- The best-cluster fold never decreases the running best score. -/
theorem bestFold_ge (analysis : AnalysisResult) (l : List (String × Cluster)) :
    ∀ b : String × ℚ,
      b.2 ≤
        (l.foldl
            (fun best p =>
              if calculateClusterSimilarity p.2 analysis > best.2 ∧
                  calculateClusterSimilarity p.2 analysis ≥ 5 / 10 then
                (p.1, calculateClusterSimilarity p.2 analysis)
              else best)
            b).2 := by
  induction l with
  | nil => intro b; exact le_refl _
  | cons q t ih =>
    intro b
    simp only [List.foldl_cons]
    by_cases hq : calculateClusterSimilarity q.2 analysis > b.2 ∧
        calculateClusterSimilarity q.2 analysis ≥ 5 / 10
    · rw [if_pos hq]
      exact le_trans (le_of_lt hq.1) (ih _)
    · rw [if_neg hq]
      exact ih b

/-- Every cluster reaching the threshold is dominated by the fold's final
best score. -/
theorem bestFold_dominates (analysis : AnalysisResult)
    (l : List (String × Cluster)) :
    ∀ b : String × ℚ, ∀ p ∈ l,
      5 / 10 ≤ calculateClusterSimilarity p.2 analysis →
      calculateClusterSimilarity p.2 analysis ≤
        (l.foldl
            (fun best p =>
              if calculateClusterSimilarity p.2 analysis > best.2 ∧
                  calculateClusterSimilarity p.2 analysis ≥ 5 / 10 then
                (p.1, calculateClusterSimilarity p.2 analysis)
              else best)
            b).2 := by
  induction l with
  | nil => intro b p hp; cases hp
  | cons q t ih =>
    intro b p hp hhalf
    simp only [List.foldl_cons]
    rcases List.mem_cons.mp hp with rfl | hmem
    · by_cases hq : calculateClusterSimilarity p.2 analysis > b.2 ∧
          calculateClusterSimilarity p.2 analysis ≥ 5 / 10
      · rw [if_pos hq]
        exact le_trans (le_refl _) (by simpa using bestFold_ge analysis t _)
      · rw [if_neg hq]
        have : ¬ calculateClusterSimilarity p.2 analysis > b.2 := by
          intro hgt; exact hq ⟨hgt, hhalf⟩
        exact le_trans (not_lt.mp this) (bestFold_ge analysis t b)
    · by_cases hq : calculateClusterSimilarity q.2 analysis > b.2 ∧
          calculateClusterSimilarity q.2 analysis ≥ 5 / 10
      · rw [if_pos hq]; exact ih _ p hmem hhalf
      · rw [if_neg hq]; exact ih b p hmem hhalf

/-- The fold either keeps its starting pair or ends at some list entry whose
similarity reached the threshold. -/
theorem bestFold_cases (analysis : AnalysisResult)
    (l : List (String × Cluster)) :
    ∀ b : String × ℚ,
      (l.foldl
          (fun best p =>
            if calculateClusterSimilarity p.2 analysis > best.2 ∧
                calculateClusterSimilarity p.2 analysis ≥ 5 / 10 then
              (p.1, calculateClusterSimilarity p.2 analysis)
            else best)
          b) = b ∨
        ∃ p ∈ l,
          (l.foldl
              (fun best p =>
                if calculateClusterSimilarity p.2 analysis > best.2 ∧
                    calculateClusterSimilarity p.2 analysis ≥ 5 / 10 then
                  (p.1, calculateClusterSimilarity p.2 analysis)
                else best)
              b) = (p.1, calculateClusterSimilarity p.2 analysis) ∧
            5 / 10 ≤ calculateClusterSimilarity p.2 analysis := by
  induction l with
  | nil => intro b; exact Or.inl rfl
  | cons q t ih =>
    intro b
    simp only [List.foldl_cons]
    by_cases hq : calculateClusterSimilarity q.2 analysis > b.2 ∧
        calculateClusterSimilarity q.2 analysis ≥ 5 / 10
    · rw [if_pos hq]
      rcases ih (q.1, calculateClusterSimilarity q.2 analysis) with h | ⟨p, hp, h, hh⟩
      · exact Or.inr ⟨q, List.mem_cons_self q t, h, hq.2⟩
      · exact Or.inr ⟨p, List.mem_cons_of_mem q hp, h, hh⟩
    · rw [if_neg hq]
      rcases ih b with h | ⟨p, hp, h, hh⟩
      · exact Or.inl h
      · exact Or.inr ⟨p, List.mem_cons_of_mem q hp, h, hh⟩

/-- When no cluster reaches the threshold the fold is inert. -/
theorem bestFold_inert (analysis : AnalysisResult)
    (l : List (String × Cluster))
    (hall : ∀ p ∈ l, calculateClusterSimilarity p.2 analysis < 1 / 2) :
    ∀ b : String × ℚ,
      (l.foldl
          (fun best p =>
            if calculateClusterSimilarity p.2 analysis > best.2 ∧
                calculateClusterSimilarity p.2 analysis ≥ 5 / 10 then
              (p.1, calculateClusterSimilarity p.2 analysis)
            else best)
          b) = b := by
  induction l with
  | nil => intro b; rfl
  | cons q t ih =>
    intro b
    simp only [List.foldl_cons]
    have hq : ¬ (calculateClusterSimilarity q.2 analysis > b.2 ∧
        calculateClusterSimilarity q.2 analysis ≥ 5 / 10) := by
      rintro ⟨-, hge⟩
      have := hall q (List.mem_cons_self q t)
      linarith
    rw [if_neg hq]
    exact ih (fun p hp => hall p (List.mem_cons_of_mem q hp)) b


/-- C5 (amended): the computed similarity is `0.4` times the fraction of the
cluster's stored shared-signal ids that occur among the domain's signal
category names, plus `0.6` times the fraction of the domain's extracted
resources matching the cluster, each term skipped when its denominator is
zero; `findBestCluster` returns `""` exactly when no cluster reaches
similarity `0.5`, and otherwise a stored cluster of maximal similarity, which
`AddDomainToCluster` then extends (creating a fresh cluster with the
fingerprint id otherwise). -/
theorem clusterSimilarity_and_assignment (md5hex12 : String → String)
    (ce : ClusterEngine) (domain : String) (analysis : AnalysisResult)
    (now : ℚ) (hids : ∀ p ∈ ce.Clusters, p.1 ≠ "") :
    (∀ cl : Cluster,
        calculateClusterSimilarity cl analysis =
          (if 0 < cl.SharedSignals.length then
            ((cl.SharedSignals.filter
                  (fun sg => sg ∈ extractSignalCategories analysis)).length : ℚ) /
                (cl.SharedSignals.length : ℚ) * (4 / 10)
          else 0) +
          (if 0 < (extractSharedResources analysis).length then
            (((extractSharedResources analysis).filter
                  (fun r => cl.SharedResources.lookup r.1 = some r.2)).length : ℚ) /
                ((extractSharedResources analysis).length : ℚ) * (6 / 10)
          else 0)) ∧
      (findBestCluster ce analysis = "" ↔
        ∀ p ∈ ce.Clusters, calculateClusterSimilarity p.2 analysis < 1 / 2) ∧
      (findBestCluster ce analysis ≠ "" →
        ∃ c : Cluster, (findBestCluster ce analysis, c) ∈ ce.Clusters ∧
          1 / 2 ≤ calculateClusterSimilarity c analysis ∧
          ∀ p ∈ ce.Clusters,
            calculateClusterSimilarity p.2 analysis ≤
              calculateClusterSimilarity c analysis) ∧
      (AddDomainToCluster md5hex12 ce domain analysis now).2 =
        (if findBestCluster ce analysis = "" then
          generateClusterID md5hex12 domain analysis
        else findBestCluster ce analysis) := by
  refine ⟨?_, ?_, ?_, ?_⟩
  · intro cl
    have hf :
        (fun clusterSignal =>
            (extractSignalCategories analysis).contains clusterSignal) =
          (fun sg => decide (sg ∈ extractSignalCategories analysis)) := by
      funext sg
      by_cases h : sg ∈ extractSignalCategories analysis <;> simp [h]
    simp only [calculateClusterSimilarity, hf]
    by_cases h1 : 0 < cl.SharedSignals.length <;>
      by_cases h2 : 0 < (extractSharedResources analysis).length <;>
        simp [h1, h2] <;> ring
  · constructor
    · intro hempty
      by_cases hlen : ce.Clusters.length = 0
      · intro p hp
        rw [List.length_eq_zero] at hlen
        rw [hlen] at hp
        cases hp
      · by_contra hnot
        push_neg at hnot
        obtain ⟨p, hp, hge⟩ := hnot
        simp only [findBestCluster, if_neg hlen] at hempty
        rcases bestFold_cases analysis ce.Clusters ("", 0) with h | ⟨q, hq, h, -⟩
        · have hdom := bestFold_dominates analysis ce.Clusters ("", 0) p hp
            (by linarith)
          rw [h] at hdom
          simp at hdom
          linarith
        · rw [h] at hempty
          exact hids q hq hempty
    · intro hall
      simp only [findBestCluster]
      by_cases hlen : ce.Clusters.length = 0
      · rw [if_pos hlen]
      · rw [if_neg hlen, bestFold_inert analysis ce.Clusters hall ("", 0)]
  · intro hne
    by_cases hlen : ce.Clusters.length = 0
    · exact absurd (by simp only [findBestCluster, if_pos hlen]) hne
    · have hfb : findBestCluster ce analysis =
          (ce.Clusters.foldl
              (fun best p =>
                if calculateClusterSimilarity p.2 analysis > best.2 ∧
                    calculateClusterSimilarity p.2 analysis ≥ 5 / 10 then
                  (p.1, calculateClusterSimilarity p.2 analysis)
                else best)
              ("", 0)).1 := by
        simp only [findBestCluster, if_neg hlen]
      rcases bestFold_cases analysis ce.Clusters ("", 0) with h | ⟨q, hq, h, hh⟩
      · rw [hfb, h] at hne
        exact absurd rfl hne
      · refine ⟨q.2, ?_, by linarith, ?_⟩
        · rw [hfb, h]
          exact hq
        · intro p hp
          by_cases hge : 5 / 10 ≤ calculateClusterSimilarity p.2 analysis
          · have := bestFold_dominates analysis ce.Clusters ("", 0) p hp hge
            rw [h] at this
            exact this
          · linarith [not_le.mp hge]
  · by_cases hb : findBestCluster ce analysis = ""
    · rw [if_pos hb]
      simp only [AddDomainToCluster, hb]
      simp
    · rw [if_neg hb]
      rcases hl : ce.Clusters.lookup (findBestCluster ce analysis) with _ | c <;>
        simp only [AddDomainToCluster, if_pos hb, hl]

/-- Witness for C5 on the engine holding the origin-IP cluster. -/
theorem clusterSimilarity_and_assignment_witness :
    (AddDomainToCluster (fun _ => "c2hash") ⟨[("c1", originCluster)]⟩
          "second.example" (mkOriginAnalysis "second.example") 3).2 =
      (if findBestCluster ⟨[("c1", originCluster)]⟩
            (mkOriginAnalysis "second.example") = "" then
        generateClusterID (fun _ => "c2hash") "second.example"
          (mkOriginAnalysis "second.example")
      else findBestCluster ⟨[("c1", originCluster)]⟩
        (mkOriginAnalysis "second.example")) :=
  (clusterSimilarity_and_assignment (fun _ => "c2hash")
      ⟨[("c1", originCluster)]⟩ "second.example"
      (mkOriginAnalysis "second.example") 3
      (by intro p hp; rcases List.mem_cons.mp hp with rfl | h
          · decide
          · cases h)).2.2.2

end Fogger
